import Mathlib

/-!
Verification of the scoring and multi-modal fusion engine of the AutiCare
screening-questionnaire application.

The repository's UI layer (`src/pages/Index.tsx`, `src/components/*.tsx`)
contains the glue code: how the questionnaire answers are turned into an
`Answer` array, how the family-history flag is derived, how the optional
video-model prediction is threaded into `calculateFusedScore`
(`modelScore = videoPrediction?.prediction_score || null`,
`modelConfidence = videoPrediction?.confidence || 0.7`), how the result is
amended with the fused score and severity, which fields are persisted, and
how a `ScoringResult` is reconstructed on reload.  That glue is embedded
here directly from the source.

The scoring core itself (`@/utils/scoring` : `calculateScore`,
`@/utils/fusedScoring` : `calculateFusedScore`, `getSeverityFromScore`,
and the static weight/action configuration) is imported by the source
files but its module is not part of the repository snapshot; those
definitions are modelled from the specification, as marked in their doc
comments.

Rational arithmetic is expressed through small executable wrappers
(`qAdd`, `qMul`, `qDiv`, `qMin`, `qMax`, `roundHalfUp`) built on `mkRat`
and `Rat.divInt`, because the standard `Rat.add`/`Rat.mul` are
`irreducible` and would block kernel evaluation of concrete scoring runs.
Each wrapper is proved equal to the corresponding field operation, and the
theorems are stated with the ordinary field operations.
-/

deriving instance DecidableEq for Except

namespace AutiCare

/-- Kernel-evaluable rational addition; equal to `+` by `qAdd_eq`. -/
def qAdd (a b : ℚ) : ℚ := mkRat (a.num * b.den + b.num * a.den) (a.den * b.den)

/-- Kernel-evaluable rational multiplication; equal to `*` by `qMul_eq`. -/
def qMul (a b : ℚ) : ℚ := mkRat (a.num * b.num) (a.den * b.den)

/-- Kernel-evaluable rational division; equal to `/` by `qDiv_eq`. -/
def qDiv (a b : ℚ) : ℚ := Rat.divInt (a.num * b.den) (a.den * b.num)

/-- Kernel-evaluable minimum on `ℚ`; equal to `min` by `qMin_eq`. -/
def qMin (a b : ℚ) : ℚ := if a < b then a else b

/-- Kernel-evaluable maximum on `ℚ`; equal to `max` by `qMax_eq`. -/
def qMax (a b : ℚ) : ℚ := if a < b then b else a

/-- Round half-up of a rational, computed on numerator and denominator;
equal to Mathlib's `round` (which is also half-up) by
`roundHalfUp_eq_round`. -/
def roundHalfUp (x : ℚ) : ℤ := (2 * x.num + (x.den : ℤ)) / (2 * (x.den : ℤ))

theorem qAdd_eq (a b : ℚ) : qAdd a b = a + b := by
  have ha : (a.den : ℚ) ≠ 0 := Nat.cast_ne_zero.mpr a.den_nz
  have hb : (b.den : ℚ) ≠ 0 := Nat.cast_ne_zero.mpr b.den_nz
  rw [qAdd, Rat.mkRat_eq_div]
  push_cast
  conv_rhs => rw [← Rat.num_div_den a, ← Rat.num_div_den b]
  field_simp

theorem qMul_eq (a b : ℚ) : qMul a b = a * b := by
  have ha : (a.den : ℚ) ≠ 0 := Nat.cast_ne_zero.mpr a.den_nz
  have hb : (b.den : ℚ) ≠ 0 := Nat.cast_ne_zero.mpr b.den_nz
  rw [qMul, Rat.mkRat_eq_div]
  push_cast
  conv_rhs => rw [← Rat.num_div_den a, ← Rat.num_div_den b]
  field_simp

theorem qDiv_eq (a b : ℚ) : qDiv a b = a / b := by
  rcases eq_or_ne b 0 with rfl | hb
  · show Rat.divInt (a.num * (0:ℚ).den) (a.den * (0:ℚ).num) = a / 0
    simp
  · have ha : (a.den : ℚ) ≠ 0 := Nat.cast_ne_zero.mpr a.den_nz
    have hbd : (b.den : ℚ) ≠ 0 := Nat.cast_ne_zero.mpr b.den_nz
    have hbn : (b.num : ℚ) ≠ 0 := by
      exact_mod_cast Rat.num_ne_zero.mpr hb
    rw [qDiv, Rat.divInt_eq_div]
    push_cast
    conv_rhs => rw [← Rat.num_div_den a, ← Rat.num_div_den b]
    field_simp

theorem qMin_eq (a b : ℚ) : qMin a b = min a b := by
  rw [qMin, min_def]
  split_ifs with h1 h2 <;> first | rfl | linarith

theorem qMax_eq (a b : ℚ) : qMax a b = max a b := by
  rw [qMax, max_def]
  split_ifs with h1 h2 <;> first | rfl | linarith

theorem roundHalfUp_eq_round (x : ℚ) : roundHalfUp x = round x := by
  have hd : (x.den : ℚ) ≠ 0 := Nat.cast_ne_zero.mpr x.den_nz
  have hx : x + 1/2 = ((2 * x.num + (x.den : ℤ) : ℤ) : ℚ) / ((2 * x.den : ℕ) : ℚ) := by
    push_cast
    conv_lhs => rw [← Rat.num_div_den x]
    field_simp
    ring
  rw [round_eq, roundHalfUp, hx, Rat.floor_intCast_div_natCast]
  push_cast
  rfl

/-- The fixed 5-point ordinal answer vocabulary (`AnswerValue` in
`@/utils/scoring`, enumerated in `Questionnaire.tsx`'s `answerOptions`). -/
inductive AnswerValue
  | never
  | rarely
  | sometimes
  | often
  | always
deriving DecidableEq, BEq

/-- An answer: question identifier plus ordinal value (`Answer` in
`@/utils/scoring`, built in `Index.tsx` from `Object.entries(answers)`). -/
structure Answer where
  questionId : String
  value : AnswerValue
deriving DecidableEq, BEq

/-- Respondent roles, from `type Role` in `Index.tsx`. -/
inductive Role
  | individual
  | parent
  | clinician
deriving DecidableEq, BEq

/-- The four severity bands, from the `severity` field of `ScoringResult`
(the `severityColors` keys in `ResultModal.tsx`). -/
inductive Severity
  | low
  | mild
  | moderate
  | high
deriving DecidableEq, BEq

/-- Error taxonomy of the scoring core (spec §7). -/
inductive ScoringError
  | invalidAnswer
  | insufficientData
  | outOfRange
  | malformedSecondaryPrediction
deriving DecidableEq, BEq

/-- The optional secondary prediction handed to the core by the external
predictive-model collaborator, shaped `{prediction_score, confidence}` as
in `ResultModal.tsx` / `Index.tsx` (`metadata?.videoPrediction`).  The
confidence field may be absent (`videoPrediction?.confidence` can be
`undefined`). -/
structure SecondaryPrediction where
  prediction_score : ℚ
  confidence : Option ℚ
deriving DecidableEq, BEq

/-- A ranked contributor entry `{question, action}` of
`ScoringResult.topContributors`. -/
structure Contributor where
  question : String
  action : String
deriving DecidableEq, BEq

/-- `ScoringResult` from `@/utils/scoring`, as consumed by
`ResultModal.tsx` and `Dashboard.tsx`. -/
structure ScoringResult where
  normalizedScore : ℤ
  fusedScore : Option ℤ
  severity : Severity
  severityLabel : String
  topContributors : List Contributor
deriving DecidableEq, BEq

/-- Modelled from the spec: the Answer Normalizer (§4.1; part of the
missing `@/utils/scoring`).  The five ordinal labels map to the strictly
increasing scale 0,1,2,3,4. -/
def normalize : AnswerValue → ℚ
  | .never => 0
  | .rarely => 1
  | .sometimes => 2
  | .often => 3
  | .always => 4

/-- Weighted contribution of one answered question:
`normalize(value) * weight(questionId)` (spec §4.2 step 1, §4.3). -/
def contribution (w : String → ℚ) (a : Answer) : ℚ :=
  qMul (normalize a.value) (w a.questionId)

/-- Sum of weighted contributions over the answered questions only
(spec-side formula used in theorem statements). -/
def weightedSum (answers : List Answer) (w : String → ℚ) : ℚ :=
  (answers.map (contribution w)).sum

/-- Sum of the weights of the answered questions only (the normalization
denominator of spec §4.2 step 2). -/
def answeredWeightSum (answers : List Answer) (w : String → ℚ) : ℚ :=
  (answers.map (fun a => w a.questionId)).sum

/-- Modelled from the spec: the Score Aggregator (§4.2; the aggregation
step of `calculateScore` in the missing `@/utils/scoring`).  An empty
answer set fails with `InsufficientDataError`; otherwise the weighted
contributions are accumulated, divided by the summed weights of the
answered questions only, rescaled linearly from the 0–4 range to 0–100,
the family-history adjustment (a fixed additive boost of 10, clamped back
into [0,100]) is applied when the flag holds, and the result is rounded
half-up. -/
def aggregate (answers : List Answer) (w : String → ℚ) (hasFamilyHistory : Bool) :
    Except ScoringError ℤ :=
  match answers with
  | [] => .error .insufficientData
  | _ :: _ =>
    let s := answers.foldl (fun acc a => qAdd acc (contribution w a)) 0
    let ws := answers.foldl (fun acc a => qAdd acc (w a.questionId)) 0
    let base := qMul (qDiv (qDiv s ws) 4) 100
    let adjusted := if hasFamilyHistory then qMin 100 (qMax 0 (qAdd base 10)) else base
    .ok (roundHalfUp adjusted)

/-- Numeric order of the severity bands (low < mild < moderate < high). -/
def Severity.rank : Severity → ℕ
  | .low => 0
  | .mild => 1
  | .moderate => 2
  | .high => 3

/-- Human-readable label of a severity band. -/
def labelOf : Severity → String
  | .low => "Low"
  | .mild => "Mild"
  | .moderate => "Moderate"
  | .high => "High"

/-- Modelled from the spec: the severity band of a score (§4.5; the band
table of `getSeverityFromScore` in the missing `@/utils/fusedScoring`),
using the strictly increasing partition [0,25), [25,50), [50,75), [75,100]
given as the spec's example configuration. -/
def bandOf (score : ℤ) : Severity :=
  if score < 25 then .low
  else if score < 50 then .mild
  else if score < 75 then .moderate
  else .high

/-- Modelled from the spec: `getSeverityFromScore` of the missing
`@/utils/fusedScoring`, returning the `{level, label}` pair used by
`Index.tsx`/`ResultModal.tsx` when amending a result. -/
def getSeverityFromScore (score : ℤ) : Severity × String :=
  (bandOf score, labelOf (bandOf score))

/-- Modelled from the spec: the Severity Classifier contract (§4.5):
total over [0,100], `OutOfRangeError` outside that domain. -/
def classify (score : ℤ) : Except ScoringError Severity :=
  if 0 ≤ score ∧ score ≤ 100 then .ok (bandOf score) else .error .outOfRange

set_option linter.unusedVariables false in
/-- Modelled from the spec: the Fusion Engine (§4.4; `calculateFusedScore`
of the missing `@/utils/fusedScoring`).  With no model score the
questionnaire score passes through unchanged (a no-op, not an error);
otherwise the model score is clamped to [0,100] and blended with the
fixed 60/40 split, rounded half-up and clamped into [0,100].  The
confidence argument is accepted (it is a caller-side policy lever) but
does not modulate the fixed split. -/
def calculateFusedScore (questionnaireScore : ℤ) (modelScore : Option ℚ)
    (confidence : ℚ) : ℤ :=
  match modelScore with
  | none => questionnaireScore
  | some s =>
    let s' := qMin 100 (qMax 0 s)
    min 100 (max 0 (roundHalfUp
      (qAdd (qMul (mkRat 3 5) ((questionnaireScore : ℚ))) (qMul (mkRat 2 5) s'))))

/-- The pairwise order used by the Contributor Ranker: strictly larger
contribution first, ties broken by the original question position
(spec §4.3: deterministic stable tie-break). -/
def rankRel (w : String → ℚ) (x y : ℕ × Answer) : Prop :=
  contribution w y.2 < contribution w x.2 ∨
    (contribution w x.2 = contribution w y.2 ∧ x.1 ≤ y.1)

instance rankRelDecidable (w : String → ℚ) : DecidableRel (rankRel w) := fun _ _ =>
  inferInstanceAs (Decidable (_ ∨ _))

instance rankRelTotal (w : String → ℚ) : IsTotal (ℕ × Answer) (rankRel w) := by
  constructor
  intro x y
  rcases lt_trichotomy (contribution w x.2) (contribution w y.2) with h | h | h
  · exact Or.inr (Or.inl h)
  · rcases Nat.le_total x.1 y.1 with h' | h'
    · exact Or.inl (Or.inr ⟨h, h'⟩)
    · exact Or.inr (Or.inr ⟨h.symm, h'⟩)
  · exact Or.inl (Or.inl h)

instance rankRelTrans (w : String → ℚ) : IsTrans (ℕ × Answer) (rankRel w) := by
  constructor
  intro x y z hxy hyz
  rcases hxy with h1 | ⟨h1, h1'⟩ <;> rcases hyz with h2 | ⟨h2, h2'⟩
  · exact Or.inl (lt_trans h2 h1)
  · exact Or.inl (h2 ▸ h1)
  · exact Or.inl (h1 ▸ h2)
  · exact Or.inr ⟨h1.trans h2, h1'.trans h2'⟩

/-- Modelled from the spec: the selection step of the Contributor Ranker
(§4.3).  Answers are indexed by original position, sorted stably by
descending weighted contribution, and the top K = 3 are kept. -/
def rankSelect (answers : List Answer) (w : String → ℚ) : List (ℕ × Answer) :=
  (List.insertionSort (rankRel w) answers.enum).take 3

/-- Modelled from the spec: the Contributor Ranker (§4.3).  `actionOf` is
the static category-derived suggested-action lookup (configuration data
missing from the snapshot, passed as a parameter). -/
def rank (answers : List Answer) (w : String → ℚ) (actionOf : String → String) :
    List Contributor :=
  (rankSelect answers w).map fun p => ⟨p.2.questionId, actionOf p.2.questionId⟩

/-- Modelled from the spec: `calculateScore` of the missing
`@/utils/scoring`, following the spec's data flow (§2): answers are
aggregated into the questionnaire score, the contributors are ranked, and
the optional secondary prediction is blended to give the fused score; the
severity is derived from the fused score when present, otherwise from the
questionnaire score (§3 invariant).  The signature follows the call sites
`calculateScore(answerArray, questionWeights, hasFamilyHistory,
videoPrediction?)`, with `actionOf` standing for the static action-table
configuration. -/
def calculateScore (answers : List Answer) (w : String → ℚ)
    (actionOf : String → String) (hasFamilyHistory : Bool)
    (videoPrediction : Option SecondaryPrediction) :
    Except ScoringError ScoringResult :=
  match aggregate answers w hasFamilyHistory with
  | .error e => .error e
  | .ok norm =>
    let contributors := rank answers w actionOf
    match videoPrediction with
    | none =>
      .ok ⟨norm, none, (getSeverityFromScore norm).1, (getSeverityFromScore norm).2,
        contributors⟩
    | some p =>
      let f := calculateFusedScore norm (some p.prediction_score)
        (p.confidence.getD (mkRat 7 10))
      .ok ⟨norm, some f, (getSeverityFromScore f).1, (getSeverityFromScore f).2,
        contributors⟩

/-- Glue from `Index.tsx` (`handleQuestionnaireComplete`): the
family-history flag is `selectedRole === 'parent' && answers['par_20'] ===
'always'`. -/
def hasFamilyHistoryFlag (role : Role) (answers : List Answer) : Bool :=
  (role == .parent) &&
    ((answers.find? fun a => a.questionId == "par_20").any fun a => a.value == .always)

/-- Glue from `ResultModal.tsx` line 320: `const modelScore =
videoPrediction?.prediction_score || null` — a prediction score of 0 is
falsy in JavaScript and becomes `null`. -/
def modelScoreOf : Option SecondaryPrediction → Option ℚ
  | none => none
  | some p => if p.prediction_score = 0 then none else some p.prediction_score

/-- Glue from `ResultModal.tsx` line 321: `const modelConfidence =
videoPrediction?.confidence || 0.7` — an absent prediction, an absent
confidence field, and a confidence of 0 (falsy) all yield the default
0.7. -/
def modelConfidenceOf : Option SecondaryPrediction → ℚ
  | none => mkRat 7 10
  | some p =>
    match p.confidence with
    | none => mkRat 7 10
    | some c => if c = 0 then mkRat 7 10 else c

/-- Glue from `ResultModal.tsx` lines 320–322: the fused score actually
computed by `handleQuestionnaireComplete` for a given questionnaire score
and optional video prediction. -/
def glueFusedScore (q : ℤ) (pred : Option SecondaryPrediction) : ℤ :=
  calculateFusedScore q (modelScoreOf pred) (modelConfidenceOf pred)

/-- Glue from `ResultModal.tsx` lines 304–330 (`handleQuestionnaireComplete`
of the fused-scoring variant of `Index`): compute the scoring result, then
amend it with the glue fused score and the severity derived from it. -/
def produceResult (role : Role) (answers : List Answer) (w : String → ℚ)
    (actionOf : String → String) (videoPrediction : Option SecondaryPrediction) :
    Except ScoringError ScoringResult :=
  match calculateScore answers w actionOf (hasFamilyHistoryFlag role answers)
      videoPrediction with
  | .error e => .error e
  | .ok result =>
    let fusedScore := glueFusedScore result.normalizedScore videoPrediction
    .ok { result with
      fusedScore := some fusedScore
      severity := (getSeverityFromScore fusedScore).1
      severityLabel := (getSeverityFromScore fusedScore).2 }

/-- Glue from `ResultModal.tsx` line 342 (`saveAssessmentData` call): the
persisted `model_score` is `modelScore ? Math.round(modelScore) : null`. -/
def savedModelScore (pred : Option SecondaryPrediction) : Option ℤ :=
  match modelScoreOf pred with
  | none => none
  | some m => if m = 0 then none else some (roundHalfUp m)

/-- Glue from `ResultModal.tsx` lines 201–204 (dashboard reconstruction):
`const videoPrediction = storedModelScore ? {prediction_score:
storedModelScore, confidence: 0.7} : undefined` — a stored model score of
0 (or null) yields no prediction. -/
def videoPredictionOfStored (storedModelScore : Option ℤ) : Option SecondaryPrediction :=
  match storedModelScore with
  | none => none
  | some m => if m = 0 then none else some ⟨(m : ℚ), some (mkRat 7 10)⟩

/-- Glue from `ResultModal.tsx` lines 191–215 (dashboard reconstruction of
the fused-scoring variant): rebuild the result from the persisted answers
with `hasFamilyHistory := false`, then, when a fused score was persisted,
overwrite the fused score and re-derive the severity from it. -/
def reconstructResult (answers : List Answer) (w : String → ℚ)
    (actionOf : String → String) (storedModelScore storedFusedScore : Option ℤ) :
    Except ScoringError ScoringResult :=
  match calculateScore answers w actionOf false
      (videoPredictionOfStored storedModelScore) with
  | .error e => .error e
  | .ok result =>
    match storedFusedScore with
    | none => .ok result
    | some f =>
      .ok { result with
        fusedScore := some f
        severity := (getSeverityFromScore f).1
        severityLabel := (getSeverityFromScore f).2 }

/-- Glue from `Index.tsx` lines 157–171 (`handleQuestionnaireComplete`):
the original production path scores with the family-history flag derived
from the role and answers. -/
def originalResult (role : Role) (answers : List Answer) (w : String → ℚ)
    (actionOf : String → String) (videoPrediction : Option SecondaryPrediction) :
    Except ScoringError ScoringResult :=
  calculateScore answers w actionOf (hasFamilyHistoryFlag role answers) videoPrediction

/-- Glue from `Index.tsx` lines 62–69 (dashboard reconstruction): on
reload the result is recomputed as `calculateScore(answerArray,
questionWeights, false)` — the family-history flag is hardcoded to
`false` and no video prediction is passed. -/
def reloadResult (answers : List Answer) (w : String → ℚ)
    (actionOf : String → String) : Except ScoringError ScoringResult :=
  calculateScore answers w actionOf false none

/-- Folding `qAdd` over a list is the sum of the mapped values. -/
theorem foldl_qAdd_eq_sum (f : Answer → ℚ) (l : List Answer) (init : ℚ) :
    l.foldl (fun acc a => qAdd acc (f a)) init = init + (l.map f).sum := by
  induction l generalizing init with
  | nil => simp
  | cons a t ih =>
    rw [List.foldl_cons, ih, qAdd_eq, List.map_cons, List.sum_cons]
    ring

/-- C1: for every non-empty answer set the aggregate questionnaire score
is `round(weightedSum / answeredWeightSum / 4 * 100)`, where the sums
range over the answered questions only — unanswered questions contribute
nothing and are excluded from the denominator. -/
theorem aggregate_formula (answers : List Answer) (w : String → ℚ)
    (hne : answers ≠ []) :
    aggregate answers w false =
      .ok (round (weightedSum answers w / answeredWeightSum answers w / 4 * 100)) := by
  cases answers with
  | nil => exact absurd rfl hne
  | cons a t =>
    show Except.ok (roundHalfUp _) = _
    rw [foldl_qAdd_eq_sum (contribution w) (a :: t) 0,
      foldl_qAdd_eq_sum (fun a => w a.questionId) (a :: t) 0,
      qMul_eq, qDiv_eq, qDiv_eq, roundHalfUp_eq_round]
    simp [weightedSum, answeredWeightSum]

/-- C1 witness: with weights `{q1:1, q2:1}` and answers
`{q1: always, q2: never}` the aggregate is 50; with only `q1: always`
answered it is 100. -/
theorem aggregate_formula_witness :
    ([⟨"q1", .always⟩, ⟨"q2", .never⟩] : List Answer) ≠ [] ∧
    aggregate [⟨"q1", .always⟩, ⟨"q2", .never⟩] (fun _ => 1) false = .ok 50 ∧
    aggregate [⟨"q1", .always⟩] (fun _ => 1) false = .ok 100 := by
  refine ⟨by decide, ?_, ?_⟩
  · rw [aggregate_formula [⟨"q1", .always⟩, ⟨"q2", .never⟩] (fun _ => 1) (by decide),
      ← roundHalfUp_eq_round]
    norm_num [weightedSum, answeredWeightSum, contribution, normalize, qMul_eq]
    decide
  · rw [aggregate_formula [⟨"q1", .always⟩] (fun _ => 1) (by decide),
      ← roundHalfUp_eq_round]
    norm_num [weightedSum, answeredWeightSum, contribution, normalize, qMul_eq]
    decide

/-- C6: for the empty answer set the aggregator fails with
`InsufficientDataError` rather than returning a zero score. -/
theorem aggregate_empty_insufficient (w : String → ℚ) (hasFamilyHistory : Bool) :
    aggregate [] w hasFamilyHistory = .error .insufficientData := rfl

/-- C4: fusing with an absent secondary prediction is the identity, both
for the fusion engine itself (for any confidence) and for the glue path of
`handleQuestionnaireComplete`; the result is an ordinary successful value,
not an error. -/
theorem fuse_absent_noop (s : ℤ) (c : ℚ) :
    calculateFusedScore s none c = s ∧ glueFusedScore s none = s :=
  ⟨rfl, rfl⟩

/-- C5: the severity classifier is total over [0,100], monotonic in band
order, fails with `OutOfRangeError` outside [0,100], and its four bands
form the strictly increasing partition [0,25), [25,50), [50,75),
[75,100]. -/
theorem classify_total_monotone_partition :
    (∀ s : ℤ, 0 ≤ s → s ≤ 100 → classify s = .ok (bandOf s)) ∧
    (∀ s₁ s₂ : ℤ, 0 ≤ s₂ → s₂ < s₁ → s₁ ≤ 100 →
      (bandOf s₂).rank ≤ (bandOf s₁).rank) ∧
    (∀ s : ℤ, s < 0 ∨ 100 < s → classify s = .error .outOfRange) ∧
    (∀ s : ℤ, 0 ≤ s → s ≤ 100 →
      ((bandOf s = .low ↔ s < 25) ∧ (bandOf s = .mild ↔ 25 ≤ s ∧ s < 50) ∧
       (bandOf s = .moderate ↔ 50 ≤ s ∧ s < 75) ∧ (bandOf s = .high ↔ 75 ≤ s))) := by
  refine ⟨?_, ?_, ?_, ?_⟩
  · intro s h1 h2
    rw [classify, if_pos ⟨h1, h2⟩]
  · intro s1 s2 h0 hlt h100
    unfold bandOf
    split_ifs <;> simp only [Severity.rank] <;> omega
  · intro s h
    rw [classify, if_neg (by omega)]
  · intro s h1 h2
    unfold bandOf
    split_ifs <;> refine ⟨?_, ?_, ?_, ?_⟩ <;> simp <;> omega

/-- C5 witness: concrete instances of totality, monotonicity, the
out-of-range error, and one partition boundary. -/
theorem classify_total_monotone_partition_witness :
    classify 50 = .ok (bandOf 50) ∧ (bandOf 20).rank ≤ (bandOf 80).rank ∧
    classify 101 = .error .outOfRange ∧
    (bandOf 50 = .moderate ↔ 50 ≤ (50:ℤ) ∧ (50:ℤ) < 75) :=
  ⟨classify_total_monotone_partition.1 50 (by decide) (by decide),
   classify_total_monotone_partition.2.1 80 20 (by decide) (by decide) (by decide),
   classify_total_monotone_partition.2.2.1 101 (Or.inr (by decide)),
   (classify_total_monotone_partition.2.2.2 50 (by decide) (by decide)).2.2.1⟩

/-- C2 counterexample: a supplied secondary prediction whose score is 0
is discarded by the glue (`prediction_score || null`), so the fused score
for questionnaire score 80 is 80, not
`round(0.6*80 + 0.4*0) = 48` as the claim requires. -/
theorem fused_formula_counterexample :
    glueFusedScore 80 (some ⟨0, some (mkRat 9 10)⟩) = 80 ∧
    min 100 (max 0 (round ((3:ℚ)/5 * 80 + 2/5 * 0))) = 48 ∧ (80 : ℤ) ≠ 48 := by
  refine ⟨by decide, ?_, by decide⟩
  rw [← roundHalfUp_eq_round]
  norm_num
  decide

set_option linter.unusedVariables false in
/-- C2 amended: for every questionnaire score q in [0,100] and every
supplied secondary prediction with nonzero score s in [0,100], the fused
score equals `round(0.6*q + 0.4*s)` clamped into [0,100] (a score of 0 is
treated as an absent prediction by the glue and left to C10). -/
theorem fused_formula (q : ℤ) (s : ℚ) (co : Option ℚ)
    (hq0 : 0 ≤ q) (hq1 : q ≤ 100) (hs0 : 0 ≤ s) (hs1 : s ≤ 100) (hs : s ≠ 0) :
    glueFusedScore q (some ⟨s, co⟩) =
      min 100 (max 0 (round ((3:ℚ)/5 * q + 2/5 * s))) := by
  simp only [glueFusedScore, modelScoreOf, if_neg hs, calculateFusedScore]
  rw [qMin_eq, qMax_eq, max_eq_right hs0, min_eq_right hs1, qAdd_eq, qMul_eq,
    qMul_eq, roundHalfUp_eq_round]
  norm_num [Rat.mkRat_eq_div]

/-- C2 witness: questionnaire score 80 and secondary prediction
{score: 40, confidence: 0.9} fuse to 64. -/
theorem fused_formula_witness :
    ((0:ℤ) ≤ 80 ∧ (80:ℤ) ≤ 100 ∧ (0:ℚ) ≤ 40 ∧ (40:ℚ) ≤ 100 ∧ (40:ℚ) ≠ 0) ∧
    glueFusedScore 80 (some ⟨40, some (mkRat 9 10)⟩) = 64 := by
  refine ⟨⟨by decide, by decide, by decide, by decide, by decide⟩, ?_⟩
  rw [fused_formula 80 40 (some (mkRat 9 10)) (by decide) (by decide) (by decide)
    (by decide) (by decide), ← roundHalfUp_eq_round]
  norm_num
  decide

/-- C9 counterexample: a supplied confidence of exactly 0 is falsy in
`videoPrediction?.confidence || 0.7`, so the confidence handed to the
fusion engine is the default 0.7, not the supplied 0. -/
theorem confidence_zero_counterexample :
    modelConfidenceOf (some ⟨50, some 0⟩) = 7/10 ∧ ((7:ℚ)/10) ≠ 0 := by
  constructor
  · rw [show (7:ℚ)/10 = mkRat 7 10 from by rw [Rat.mkRat_eq_div]; norm_num]
    decide
  · norm_num

/-- C9 amended: the glue passes the supplied confidence value to the
fusion engine when it is present and nonzero, and substitutes the default
confidence 0.7 when the prediction or its confidence is absent or the
confidence equals 0. -/
theorem confidence_policy (s : ℚ) (c : ℚ) :
    modelConfidenceOf none = 7/10 ∧
    modelConfidenceOf (some ⟨s, none⟩) = 7/10 ∧
    modelConfidenceOf (some ⟨s, some 0⟩) = 7/10 ∧
    (c ≠ 0 → modelConfidenceOf (some ⟨s, some c⟩) = c) := by
  have h710 : (mkRat 7 10 : ℚ) = 7/10 := by rw [Rat.mkRat_eq_div]; norm_num
  refine ⟨h710, h710, ?_, ?_⟩
  · show (if (0:ℚ) = 0 then mkRat 7 10 else 0) = 7/10
    rw [if_pos rfl, h710]
  · intro hc
    show (if c = 0 then mkRat 7 10 else c) = c
    rw [if_neg hc]

/-- C9 witness: a nonzero supplied confidence (0.9) is passed through
unchanged. -/
theorem confidence_policy_witness :
    (mkRat 9 10 : ℚ) ≠ 0 ∧
    modelConfidenceOf (some ⟨50, some (mkRat 9 10)⟩) = mkRat 9 10 :=
  ⟨by decide, (confidence_policy 50 (mkRat 9 10)).2.2.2 (by decide)⟩

/-- C10: a supplied secondary prediction with score 0 is treated exactly
as an absent prediction: the glue model score is `null`, the fused score
equals the one computed with no prediction, the persisted `model_score`
is `null`, and reconstruction of a stored model score of 0 yields no
prediction. -/
theorem zero_score_prediction_absent (c : Option ℚ) (q : ℤ) :
    modelScoreOf (some ⟨0, c⟩) = none ∧
    glueFusedScore q (some ⟨0, c⟩) = glueFusedScore q none ∧
    glueFusedScore q (some ⟨0, c⟩) = q ∧
    savedModelScore (some ⟨0, c⟩) = none ∧
    videoPredictionOfStored (some 0) = none := by
  refine ⟨?_, ?_, ?_, ?_, ?_⟩ <;>
    simp [modelScoreOf, glueFusedScore, calculateFusedScore, savedModelScore,
      videoPredictionOfStored]

/-- C7: the reload reconstruction path is not equivalent to the original
production path.  `Index.tsx` recomputes the result with
`calculateScore(answers, weights, false)` — the family-history flag is
hardcoded to `false` — while the original run derived it from the
answers, so for a parent whose answers include `par_20: always` the
regenerated `normalizedScore` (60 originally, with the boost) comes back
as 50. -/
theorem reload_divergence :
    hasFamilyHistoryFlag .parent [⟨"par_1", .never⟩, ⟨"par_20", .always⟩] = true ∧
    (originalResult .parent [⟨"par_1", .never⟩, ⟨"par_20", .always⟩] (fun _ => 1)
      (fun _ => "Review") none).map ScoringResult.normalizedScore = .ok 60 ∧
    (reloadResult [⟨"par_1", .never⟩, ⟨"par_20", .always⟩] (fun _ => 1)
      (fun _ => "Review")).map ScoringResult.normalizedScore = .ok 50 ∧
    (60 : ℤ) ≠ 50 :=
  ⟨by decide, by decide, by decide, by decide⟩

/-- Any successful `calculateScore` result derives its severity (and
label) from the fused score when present, otherwise from the
questionnaire score. -/
theorem calculateScore_severity (answers : List Answer) (w : String → ℚ)
    (actionOf : String → String) (famHist : Bool) (pred : Option SecondaryPrediction)
    (r : ScoringResult) (h : calculateScore answers w actionOf famHist pred = .ok r) :
    r.severity = bandOf (r.fusedScore.getD r.normalizedScore) ∧
    r.severityLabel = labelOf (bandOf (r.fusedScore.getD r.normalizedScore)) := by
  rw [calculateScore] at h
  split at h
  · exact absurd h (by simp)
  · split at h
    · injection h with h
      subst h
      exact ⟨rfl, rfl⟩
    · injection h with h
      subst h
      exact ⟨rfl, rfl⟩

/-- C3: the severity field and its label are derived from the fused score
when one is present and from the questionnaire score otherwise, both when
a result is produced by `handleQuestionnaireComplete` and when a
persisted result is reconstructed on reload. -/
theorem severity_from_fused (role : Role) (answers : List Answer) (w : String → ℚ)
    (actionOf : String → String) (pred : Option SecondaryPrediction)
    (sm sf : Option ℤ) (r₁ r₂ : ScoringResult)
    (h₁ : produceResult role answers w actionOf pred = .ok r₁)
    (h₂ : reconstructResult answers w actionOf sm sf = .ok r₂) :
    (r₁.severity = bandOf (r₁.fusedScore.getD r₁.normalizedScore) ∧
     r₁.severityLabel = labelOf (bandOf (r₁.fusedScore.getD r₁.normalizedScore))) ∧
    (r₂.severity = bandOf (r₂.fusedScore.getD r₂.normalizedScore) ∧
     r₂.severityLabel = labelOf (bandOf (r₂.fusedScore.getD r₂.normalizedScore))) := by
  constructor
  · rw [produceResult] at h₁
    split at h₁
    · exact absurd h₁ (by simp)
    · injection h₁ with h₁
      subst h₁
      exact ⟨rfl, rfl⟩
  · rw [reconstructResult] at h₂
    split at h₂
    · exact absurd h₂ (by simp)
    · rename_i result hres
      split at h₂
      · injection h₂ with h₂
        subst h₂
        exact calculateScore_severity _ _ _ _ _ _ hres
      · injection h₂ with h₂
        subst h₂
        exact ⟨rfl, rfl⟩

/-- C3 witness: a concrete produced result and a concrete reconstructed
result, each with severity matching its authoritative score. -/
theorem severity_from_fused_witness :
    produceResult .individual [⟨"q1", .always⟩] (fun _ => 1) (fun _ => "a") none =
      .ok ⟨100, some 100, .high, "High", [⟨"q1", "a"⟩]⟩ ∧
    reconstructResult [⟨"q1", .always⟩] (fun _ => 1) (fun _ => "a") none none =
      .ok ⟨100, none, .high, "High", [⟨"q1", "a"⟩]⟩ ∧
    (((⟨100, some 100, .high, "High", [⟨"q1", "a"⟩]⟩ : ScoringResult).severity =
        bandOf ((some (100:ℤ)).getD 100) ∧
      (⟨100, some 100, .high, "High", [⟨"q1", "a"⟩]⟩ : ScoringResult).severityLabel =
        labelOf (bandOf ((some (100:ℤ)).getD 100))) ∧
     ((⟨100, none, .high, "High", [⟨"q1", "a"⟩]⟩ : ScoringResult).severity =
        bandOf ((none : Option ℤ).getD 100) ∧
      (⟨100, none, .high, "High", [⟨"q1", "a"⟩]⟩ : ScoringResult).severityLabel =
        labelOf (bandOf ((none : Option ℤ).getD 100)))) := by
  refine ⟨by decide, by decide, ?_⟩
  exact severity_from_fused .individual [⟨"q1", .always⟩] (fun _ => 1) (fun _ => "a")
    none none none _ _ (by decide) (by decide)

/-- The strict version of the ranking order: strictly larger contribution
first, equal contributions in strictly increasing original position. -/
def rankStrict (w : String → ℚ) (x y : ℕ × Answer) : Prop :=
  contribution w y.2 < contribution w x.2 ∨
    (contribution w x.2 = contribution w y.2 ∧ x.1 < y.1)

/-- Combining two pairwise facts under a pointwise consequence. -/
theorem pairwise_combine {α : Type} {R S T : α → α → Prop} {l : List α}
    (h1 : l.Pairwise R) (h2 : l.Pairwise S) (himp : ∀ a b, R a b → S a b → T a b) :
    l.Pairwise T := by
  induction l with
  | nil => exact List.Pairwise.nil
  | cons a t ih =>
    rcases List.pairwise_cons.mp h1 with ⟨ha1, ht1⟩
    rcases List.pairwise_cons.mp h2 with ⟨ha2, ht2⟩
    exact List.pairwise_cons.mpr ⟨fun b hb => himp _ _ (ha1 b hb) (ha2 b hb), ih ht1 ht2⟩

/-- The sorted selection underlying `topContributors` is strictly ordered:
descending contribution, ties broken by original question order. -/
theorem rankSelect_sorted (answers : List Answer) (w : String → ℚ) :
    List.Pairwise (rankStrict w) (rankSelect answers w) := by
  have hsorted : List.Pairwise (rankRel w)
      (List.insertionSort (rankRel w) answers.enum) :=
    List.sorted_insertionSort (rankRel w) answers.enum
  have hperm : List.Perm (List.insertionSort (rankRel w) answers.enum) answers.enum :=
    List.perm_insertionSort (rankRel w) answers.enum
  have hnodup : ((List.insertionSort (rankRel w) answers.enum).map Prod.fst).Nodup :=
    ((hperm.map Prod.fst).nodup_iff).mpr (List.nodup_enum_map_fst answers)
  have hne : List.Pairwise (fun x y : ℕ × Answer => x.1 ≠ y.1)
      (List.insertionSort (rankRel w) answers.enum) :=
    List.pairwise_map.mp hnodup
  have hcomb : List.Pairwise (rankStrict w)
      (List.insertionSort (rankRel w) answers.enum) := by
    refine pairwise_combine hsorted hne ?_
    intro x y hxy hne'
    rcases hxy with h | ⟨h, h'⟩
    · exact Or.inl h
    · exact Or.inr ⟨h, lt_of_le_of_ne h' hne'⟩
  exact hcomb.sublist (List.take_sublist 3 _)

/-- C8: the `topContributors` of every successful scoring run has length
at most the fixed cap K = 3 and lists the selected questions in
descending order of weighted contribution with the stable original-order
tie-break. -/
theorem topContributors_ranked (answers : List Answer) (w : String → ℚ)
    (actionOf : String → String) (famHist : Bool) (pred : Option SecondaryPrediction)
    (r : ScoringResult) (h : calculateScore answers w actionOf famHist pred = .ok r) :
    r.topContributors.length ≤ 3 ∧
    List.Pairwise (rankStrict w) (rankSelect answers w) ∧
    r.topContributors = (rankSelect answers w).map
      (fun p => ⟨p.2.questionId, actionOf p.2.questionId⟩) := by
  have htop : r.topContributors = rank answers w actionOf := by
    rw [calculateScore] at h
    split at h
    · exact absurd h (by simp)
    · split at h <;> (injection h with h; subst h; rfl)
  refine ⟨?_, rankSelect_sorted answers w, htop⟩
  rw [htop, rank, List.length_map, rankSelect]
  exact List.length_take_le 3 _

/-- C8 witness: a concrete scoring run whose two contributors come out in
descending contribution order. -/
theorem topContributors_ranked_witness :
    calculateScore [⟨"q1", .always⟩, ⟨"q2", .never⟩] (fun _ => 1) (fun _ => "act")
        false none =
      .ok ⟨50, none, .moderate, "Moderate", [⟨"q1", "act"⟩, ⟨"q2", "act"⟩]⟩ ∧
    ((⟨50, none, .moderate, "Moderate", [⟨"q1", "act"⟩, ⟨"q2", "act"⟩]⟩ :
        ScoringResult).topContributors.length ≤ 3 ∧
     List.Pairwise (rankStrict (fun _ => 1))
       (rankSelect [⟨"q1", .always⟩, ⟨"q2", .never⟩] (fun _ => 1)) ∧
     (⟨50, none, .moderate, "Moderate", [⟨"q1", "act"⟩, ⟨"q2", "act"⟩]⟩ :
        ScoringResult).topContributors =
       (rankSelect [⟨"q1", .always⟩, ⟨"q2", .never⟩] (fun _ => 1)).map
         (fun p => ⟨p.2.questionId, (fun _ => "act") p.2.questionId⟩)) := by
  refine ⟨by decide, ?_⟩
  exact topContributors_ranked [⟨"q1", .always⟩, ⟨"q2", .never⟩] (fun _ => 1)
    (fun _ => "act") false none _ (by decide)

end AutiCare
